import Mathlib

/-!
Verification of the AuraNexus single-model inference worker
(`src/tauri-app/src-tauri/src/llm.rs`, `LlmManager`).

The Rust code drives an opaque native runtime (llama.cpp).  The embedding
abstracts that runtime as a record of deterministic functions (`LlmModel`):
tokenization, end-of-generation test, detokenization, greedy sampling and
batch decoding.  The execution context (the runtime's per-call KV-cache
state) is represented by the ordered list of batches successfully decoded
into it so far; `sample` reads the logits of the most recent flagged
position, hence is a function of that history, and `decode_ok` says whether
submitting the next batch against that history succeeds.  `generate` itself
is translated statement by statement from `LlmManager::generate`.
-/

/-- A token id (llama tokens are `i32` in the source). -/
abbrev Token := Int

/-- One `(token, position, logits-flag)` triple pushed by `batch.add` in the
source (`batch.add(*token, i as i32, &[0], is_last)`); the sequence-id list
is always `[0]` and is omitted. -/
structure BatchEntry where
  token : Token
  pos : Int
  logits : Bool
deriving DecidableEq, Repr

/-- A batch is the ordered sequence of entries submitted in one `decode`
call. -/
abbrev Batch := List BatchEntry

/-- The error taxonomy of the spec, restricted to the kinds `generate` can
return (`ModelLoad` happens at construction, the worker kinds at the
coordinator layer). -/
inductive ErrorKind where
  | contextInit
  | tokenize
  | emptyPrompt
  | decode
deriving DecidableEq, Repr

/-- Abstraction of the loaded native model plus runtime primitives used by
`LlmManager::generate`.  Every field is a pure function: the native
runtime is deterministic on the greedy path (no randomness source appears
anywhere in the source). -/
structure LlmModel where
  /-- `model.str_to_token(prompt, AddBos::Always)`: `none` models a
  tokenizer error. The BOS prefixing is internal to this function. -/
  str_to_token : String → Option (List Token)
  /-- `model.is_eog_token(id)`. -/
  is_eog_token : Token → Bool
  /-- `model.token_to_str(id, Special::Tokenize)`: `none` models a
  detokenization failure. -/
  token_to_str : Token → Option String
  /-- `sampler.sample(&context, -1)` for the greedy sampler: arg-max over
  the logits from the most recent forward pass, a deterministic function of
  the batches decoded into the context so far. -/
  sample : List Batch → Token
  /-- Whether `context.decode(&mut batch)` succeeds, given the batches
  already decoded into this context. -/
  decode_ok : List Batch → Batch → Bool
  /-- Whether `model.new_context(...)` with the given `n_ctx` succeeds. -/
  new_context_ok : Nat → Bool

/-- `LlmManager { backend, model, n_ctx }`; the backend handle has no
observable behavior and is omitted. -/
structure LlmManager where
  model : LlmModel
  n_ctx : Nat

/-- `let max_tokens = 512` in `generate`. -/
def maxTokens : Nat := 512

/-- The prefill batch of `generate`: every prompt token `i` at position `i`,
with the logits flag only on the last position
(`let is_last = i == tokens.len() - 1`). -/
def prefillBatch (tokens : List Token) : Batch :=
  tokens.enum.map fun p =>
    { token := p.2, pos := (p.1 : Int), logits := p.1 == tokens.length - 1 }

/-- The mutable locals of the autoregressive loop: the execution context
(batches decoded so far), the output buffer, and the `generated` counter. -/
structure GenState where
  ctx : List Batch
  output : String
  generated : Nat
deriving DecidableEq, Repr

/-- The batch submitted for one generated token:
`batch.add(new_token_id, generated as i32 + tokens.len() as i32, &[0], true)`. -/
def stepBatch (nPrompt : Nat) (st : GenState) (tok : Token) : Batch :=
  [{ token := tok, pos := (st.generated : Int) + (nPrompt : Int), logits := true }]

/-- The `while generated < max_tokens` loop of `generate`, with the
remaining iteration budget as structural fuel (`fuel = max_tokens -
generated` at entry).  Each iteration samples, tests for end-of-generation,
appends the detokenized piece when detokenization succeeds (a failure is
skipped, not fatal), then decodes the one-token batch; a decode failure is
fatal (`?` in the source). -/
def genLoop (m : LlmModel) (nPrompt : Nat) (st : GenState) :
    Nat → Except ErrorKind GenState
  | 0 => .ok st
  | fuel + 1 =>
    let tok := m.sample st.ctx
    if m.is_eog_token tok then
      .ok st
    else
      let output :=
        match m.token_to_str tok with
        | some piece => st.output ++ piece
        | none => st.output
      let b := stepBatch nPrompt st tok
      if m.decode_ok st.ctx b then
        genLoop m nPrompt { ctx := st.ctx ++ [b], output := output,
                            generated := st.generated + 1 } fuel
      else
        .error .decode

/-- `LlmManager::generate` up to the final `Ok(output.trim().to_string())`:
context creation, tokenization, the empty-tokenization check, the prefill
decode, then the autoregressive loop; returns the final loop state.
(`batch.add` capacity errors cannot occur: the batch is allocated with
`(tokens.len() + 512).max(1024)` slots, the prefill adds `tokens.len()`
entries and each loop iteration adds one entry after `batch.clear()`.) -/
def generateSt (mgr : LlmManager) (prompt : String) : Except ErrorKind GenState :=
  if mgr.model.new_context_ok mgr.n_ctx then
    match mgr.model.str_to_token prompt with
    | none => .error .tokenize
    | some tokens =>
      if tokens.isEmpty then
        .error .emptyPrompt
      else
        let pre := prefillBatch tokens
        if mgr.model.decode_ok [] pre then
          genLoop mgr.model tokens.length
            { ctx := [pre], output := "", generated := 0 } maxTokens
        else
          .error .decode
  else
    .error .contextInit

/-- Rust `str::trim`: remove leading and trailing whitespace characters,
embedded as an executable function on the character list. -/
def rustTrim (s : String) : String :=
  String.mk (((s.data.dropWhile Char.isWhitespace).reverse.dropWhile
    Char.isWhitespace).reverse)

/-- `LlmManager::generate`: the loop result with the output buffer trimmed,
`Ok(output.trim().to_string())`. -/
def generate (mgr : LlmManager) (prompt : String) : Except ErrorKind String :=
  (generateSt mgr prompt).map fun st => rustTrim st.output
/-- Shape invariant of the execution context during the loop: it holds the
prefill batch followed by one single-token batch per generated token, the
batch for the k-th generated token carrying position `k + nPrompt`, the
logits flag, and the token sampled from the context as it was before that
batch was decoded. -/
def ctxShape (m : LlmModel) (nPrompt : Nat) (ctx : List Batch) (generated : Nat) : Prop :=
  ctx.length = generated + 1 ∧
  ∀ k, k < generated → ∃ hk1 : k + 1 < ctx.length,
    ctx.get ⟨k + 1, hk1⟩ =
      [{ token := m.sample (ctx.take (k + 1)), pos := (k : Int) + (nPrompt : Int),
         logits := true }]

/-- The final loop state reached by `mgrRun` on the prompt "hi": the
prefill batch for tokens `[1, 104, 105]` followed by the two generated
one-token batches at positions 3 and 4. -/
def stRunFinal : GenState where
  ctx := [prefillBatch [1, 104, 105],
          [{ token := 100, pos := 3, logits := true }],
          [{ token := 100, pos := 4, logits := true }]]
  output := "100100"
  generated := 2

/-! ### Worker Coordinator model -/

/-- Modelled from the spec: the Worker Message tagged union
`Generate | CheckHealth | Shutdown` of the Worker Coordinator (spec section
4.2); the coordinator itself is not present under `src/` in this revision
(the checked-in `main.rs` calls a PythonBridge behind a mutex instead), so
it is modelled from the spec.  The generation request carries a caller id
standing for its private reply channel, plus the prompt. -/
inductive WorkerMsg where
  | generateReq : Nat → String → WorkerMsg
  | checkHealth : WorkerMsg
  | shutdown : WorkerMsg

/-- Observable events of the coordinator thread, in service order: the
start and the end of servicing a generation request, and a health reply. -/
inductive CoordEvent where
  | genStart : Nat → CoordEvent
  | genEnd : Nat → CoordEvent
  | healthReply : CoordEvent
deriving DecidableEq, Repr

/-- Modelled from the spec: the coordinator message loop (blocking receive,
processes one message fully before the next).  Given the FIFO queue
contents it yields the event trace of the single dedicated thread: each
`generateReq` is serviced to completion (start immediately followed by end)
before the next message is examined, `checkHealth` answers without touching
generation state, and `shutdown` stops consumption, dropping the rest of
the queue. -/
def coordTrace : List WorkerMsg → List CoordEvent
  | [] => []
  | WorkerMsg.generateReq id _ :: rest =>
    CoordEvent.genStart id :: CoordEvent.genEnd id :: coordTrace rest
  | WorkerMsg.checkHealth :: rest => CoordEvent.healthReply :: coordTrace rest
  | WorkerMsg.shutdown :: _ => []

/-- Whether an event opens a generation interval. -/
def isGenStart : CoordEvent → Bool
  | CoordEvent.genStart _ => true
  | _ => false

/-- Whether an event closes a generation interval. -/
def isGenEnd : CoordEvent → Bool
  | CoordEvent.genEnd _ => true
  | _ => false

/-- The number of generations in progress after a prefix of the event
trace: opened intervals minus closed ones. -/
def activeGens (evs : List CoordEvent) : Nat :=
  evs.countP isGenStart - evs.countP isGenEnd

/-! ### Concrete instances used to exhibit the behaviors at concrete inputs -/

/-- A model whose tokenizer prefixes BOS token `1` and maps each character
to its code point, with EOG token `2`, decimal detokenization, and greedy
sampling that emits token `100` until three batches have been decoded and
then the end-of-generation marker. -/
def mRun : LlmModel where
  str_to_token s := some (1 :: s.toList.map fun c => (c.toNat : Int))
  is_eog_token t := t == 2
  token_to_str t := some (toString t)
  sample ctx := if ctx.length ≥ 3 then 2 else 100
  decode_ok _ _ := true
  new_context_ok _ := true

/-- The manager built from `mRun` with the source's `n_ctx = 4096`. -/
def mgrRun : LlmManager where
  model := mRun
  n_ctx := 4096

/-- A model like `mRun` whose greedy sampler immediately emits the
end-of-generation marker. -/
def mEog : LlmModel where
  str_to_token s := some (1 :: s.toList.map fun c => (c.toNat : Int))
  is_eog_token t := t == 2
  token_to_str t := some (toString t)
  sample _ := 2
  decode_ok _ _ := true
  new_context_ok _ := true

/-- The manager built from `mEog`. -/
def mgrEog : LlmManager where
  model := mEog
  n_ctx := 4096

/-- A model that never emits an end-of-generation marker, so that only the
token budget stops generation. -/
def mNoEog : LlmModel where
  str_to_token s := some (1 :: s.toList.map fun c => (c.toNat : Int))
  is_eog_token _ := false
  token_to_str t := some (toString t)
  sample _ := 100
  decode_ok _ _ := true
  new_context_ok _ := true

/-- The manager built from `mNoEog`. -/
def mgrNoEog : LlmManager where
  model := mNoEog
  n_ctx := 4096

/-- A model whose every decode submission fails. -/
def mDecFail : LlmModel where
  str_to_token s := some (1 :: s.toList.map fun c => (c.toNat : Int))
  is_eog_token t := t == 2
  token_to_str t := some (toString t)
  sample _ := 100
  decode_ok _ _ := false
  new_context_ok _ := true

/-- The manager built from `mDecFail`. -/
def mgrDecFail : LlmManager where
  model := mDecFail
  n_ctx := 4096

/-- A model whose tokenizer returns the empty token sequence for every
prompt. -/
def mEmptyTok : LlmModel where
  str_to_token _ := some []
  is_eog_token t := t == 2
  token_to_str t := some (toString t)
  sample _ := 100
  decode_ok _ _ := true
  new_context_ok _ := true

/-- The manager built from `mEmptyTok`. -/
def mgrEmptyTok : LlmManager where
  model := mEmptyTok
  n_ctx := 4096

/-- A model whose detokenizer fails on every token, while sampling and
decoding keep succeeding. -/
def mDetokFail : LlmModel where
  str_to_token s := some (1 :: s.toList.map fun c => (c.toNat : Int))
  is_eog_token t := t == 2
  token_to_str _ := none
  sample ctx := if ctx.length ≥ 3 then 2 else 100
  decode_ok _ _ := true
  new_context_ok _ := true

/-- A loop state used to exhibit loop-level behaviors: one prefill batch
decoded, some text already in the output buffer. -/
def stDemo : GenState where
  ctx := [prefillBatch [1, 104, 105]]
  output := "abc"
  generated := 0

/-! ### Helper lemmas about the generation loop -/

theorem genLoop_generated_le (m : LlmModel) (nPrompt : Nat) :
    ∀ (fuel : Nat) (st st' : GenState),
      genLoop m nPrompt st fuel = .ok st' → st'.generated ≤ st.generated + fuel := by
  intro fuel
  induction fuel with
  | zero =>
    intro st st' h
    simp [genLoop] at h
    simp [← h]
  | succ fuel ih =>
    intro st st' h
    rw [genLoop] at h
    split at h
    · simp at h
      simp [← h]
    · simp only [] at h
      split at h
      · have := ih _ _ h
        simp at this
        omega
      · simp at h

theorem genLoop_no_eog_total (m : LlmModel) (nPrompt : Nat)
    (hdec : ∀ c b, m.decode_ok c b = true)
    (heog : ∀ t, m.is_eog_token t = false) :
    ∀ (fuel : Nat) (st : GenState),
      ∃ st', genLoop m nPrompt st fuel = .ok st' ∧
        st'.generated = st.generated + fuel := by
  intro fuel
  induction fuel with
  | zero =>
    intro st
    exact ⟨st, by simp [genLoop], by simp⟩
  | succ fuel ih =>
    intro st
    rw [genLoop]
    simp only [heog, Bool.false_eq_true, if_false, hdec, if_true]
    obtain ⟨st', h1, h2⟩ := ih
      { ctx := st.ctx ++ [stepBatch nPrompt st (m.sample st.ctx)],
        output := match m.token_to_str (m.sample st.ctx) with
          | some piece => st.output ++ piece
          | none => st.output,
        generated := st.generated + 1 }
    refine ⟨st', h1, ?_⟩
    simp at h2
    omega
theorem genLoop_ctxShape (m : LlmModel) (nPrompt : Nat) :
    ∀ (fuel : Nat) (st st' : GenState),
      ctxShape m nPrompt st.ctx st.generated →
      genLoop m nPrompt st fuel = .ok st' →
      ctxShape m nPrompt st'.ctx st'.generated := by
  intro fuel
  induction fuel with
  | zero =>
    intro st st' hshape h
    simp [genLoop] at h
    rwa [← h]
  | succ fuel ih =>
    intro st st' hshape h
    rw [genLoop] at h
    split at h
    · simp at h
      rwa [← h]
    · simp only [] at h
      split at h
      · refine ih _ _ ?_ h
        obtain ⟨hlen, hget⟩ := hshape
        constructor
        · simp [hlen]
        · intro k hk
          have hk2 : k < st.generated + 1 := by simpa using hk
          rcases Nat.lt_or_ge k st.generated with hks | hks
          · obtain ⟨hk1, hg⟩ := hget k hks
            have hk1' : k + 1 < (st.ctx ++ [stepBatch nPrompt st (m.sample st.ctx)]).length := by
              simp; omega
            refine ⟨hk1', ?_⟩
            rw [List.get_eq_getElem, List.getElem_append_left hk1,
              List.take_append_of_le_length (by omega)]
            exact hg
          · have hkeq : k = st.generated := by omega
            have hk1' : k + 1 < (st.ctx ++ [stepBatch nPrompt st (m.sample st.ctx)]).length := by
              simp; omega
            refine ⟨hk1', ?_⟩
            have hidx : k + 1 = st.ctx.length := by omega
            have hget2 : (st.ctx ++ [stepBatch nPrompt st (m.sample st.ctx)]).get ⟨k + 1, hk1'⟩ =
                stepBatch nPrompt st (m.sample st.ctx) := by
              simp only [List.get_eq_getElem]
              rw [List.getElem_append_right (by omega)]
              simp [hidx]
            rw [hget2, List.take_append_of_le_length (by omega), hidx, List.take_length]
            simp [stepBatch, hkeq]
      · simp at h

/-! ### Claim theorems -/

/-- C2: a prompt whose tokenization yields the empty token sequence makes
`generate` fail with the empty-prompt error, never an empty-string
success. -/
theorem generate_empty_tokenization (mgr : LlmManager) (prompt : String)
    (hctx : mgr.model.new_context_ok mgr.n_ctx = true)
    (htok : mgr.model.str_to_token prompt = some []) :
    generate mgr prompt = .error .emptyPrompt := by
  simp [generate, generateSt, hctx, htok, Except.map]

/-- Witness for C2: the empty-tokenizing model at a concrete prompt. -/
theorem generate_empty_tokenization_witness :
    mgrEmptyTok.model.new_context_ok mgrEmptyTok.n_ctx = true ∧
    mgrEmptyTok.model.str_to_token "hi" = some [] ∧
    generate mgrEmptyTok "hi" = .error .emptyPrompt :=
  ⟨rfl, rfl, generate_empty_tokenization mgrEmptyTok "hi" rfl rfl⟩

/-- C3: a failed batch submission is fatal to the call: a prefill decode
failure makes `generate` return the decode error, and a decode failure
inside the autoregressive loop makes the loop return the decode error
outright, discarding whatever output had accumulated in the buffer. -/
theorem decode_failure_fatal :
    (∀ (mgr : LlmManager) (prompt : String) (tokens : List Token),
      mgr.model.new_context_ok mgr.n_ctx = true →
      mgr.model.str_to_token prompt = some tokens →
      tokens ≠ [] →
      mgr.model.decode_ok [] (prefillBatch tokens) = false →
      generate mgr prompt = .error .decode) ∧
    (∀ (m : LlmModel) (nPrompt : Nat) (st : GenState) (fuel : Nat),
      m.is_eog_token (m.sample st.ctx) = false →
      m.decode_ok st.ctx (stepBatch nPrompt st (m.sample st.ctx)) = false →
      genLoop m nPrompt st (fuel + 1) = .error .decode) := by
  constructor
  · intro mgr prompt tokens hctx htok hne hdec
    simp [generate, generateSt, hctx, htok, hne, hdec, Except.map]
  · intro m nPrompt st fuel heog hdec
    rw [genLoop]
    simp [heog, hdec]

/-- Witness for C3: the always-failing decoder, at the prefill and at a
loop state whose output buffer is non-empty. -/
theorem decode_failure_fatal_witness :
    generate mgrDecFail "hi" = .error .decode ∧
    genLoop mDecFail 3 stDemo (0 + 1) = .error .decode :=
  ⟨decode_failure_fatal.1 mgrDecFail "hi" [1, 104, 105] rfl rfl (by decide) rfl,
   decode_failure_fatal.2 mDecFail 3 stDemo 0 rfl rfl⟩

/-- C5: when the sampled token is an end-of-generation marker the loop
stops with its state unchanged (the marker text is never appended), and a
successful run returns the accumulated output with surrounding whitespace
trimmed. -/
theorem eog_stops_loop_and_trims :
    (∀ (m : LlmModel) (nPrompt : Nat) (st : GenState) (fuel : Nat),
      m.is_eog_token (m.sample st.ctx) = true →
      genLoop m nPrompt st (fuel + 1) = .ok st) ∧
    (∀ (mgr : LlmManager) (prompt : String) (st : GenState),
      generateSt mgr prompt = .ok st →
      generate mgr prompt = .ok (rustTrim st.output)) := by
  constructor
  · intro m nPrompt st fuel heog
    rw [genLoop]
    simp [heog]
  · intro mgr prompt st h
    simp [generate, h, Except.map]

/-- Witness for C5: the immediately-ending model stops the loop without
touching the buffer, and the trimmed buffer is what `generate` returns. -/
theorem eog_stops_loop_and_trims_witness :
    genLoop mEog 3 stDemo (5 + 1) = .ok stDemo ∧
    generate mgrEog "hi" = .ok (rustTrim (GenState.mk [prefillBatch [1, 104, 105]] "" 0).output) :=
  ⟨eog_stops_loop_and_trims.1 mEog 3 stDemo 5 rfl,
   eog_stops_loop_and_trims.2 mgrEog "hi" (GenState.mk [prefillBatch [1, 104, 105]] "" 0) rfl⟩

/-- C6: a detokenization failure for the sampled token leaves the output
buffer untouched but the loop continues: the token is still decoded into
the context and still counted against the budget, and no error is
raised. -/
theorem detok_failure_nonfatal (m : LlmModel) (nPrompt : Nat) (st : GenState) (fuel : Nat)
    (heog : m.is_eog_token (m.sample st.ctx) = false)
    (hdetok : m.token_to_str (m.sample st.ctx) = none)
    (hdec : m.decode_ok st.ctx (stepBatch nPrompt st (m.sample st.ctx)) = true) :
    genLoop m nPrompt st (fuel + 1) =
      genLoop m nPrompt
        { ctx := st.ctx ++ [stepBatch nPrompt st (m.sample st.ctx)],
          output := st.output, generated := st.generated + 1 } fuel := by
  rw [genLoop]
  simp [heog, hdetok, hdec]

/-- Witness for C6: the failing detokenizer at a concrete loop state. -/
theorem detok_failure_nonfatal_witness :
    genLoop mDetokFail 3 stDemo (7 + 1) =
      genLoop mDetokFail 3
        { ctx := stDemo.ctx ++ [stepBatch 3 stDemo (mDetokFail.sample stDemo.ctx)],
          output := stDemo.output, generated := stDemo.generated + 1 } 7 :=
  detok_failure_nonfatal mDetokFail 3 stDemo 7 rfl rfl rfl

/-- C8: `generate` is a deterministic function of the loaded model, the
context window and the prompt: two managers with equal model and equal
`n_ctx` produce identical results for every prompt. -/
theorem generate_deterministic (e1 e2 : LlmManager) (prompt : String)
    (hm : e1.model = e2.model) (hn : e1.n_ctx = e2.n_ctx) :
    generate e1 prompt = generate e2 prompt := by
  cases e1
  cases e2
  simp only [] at hm hn
  subst hm
  subst hn
  rfl

/-- Witness for C8: two syntactically different managers with the same
model and context window agree at a concrete prompt. -/
theorem generate_deterministic_witness :
    generate mgrRun "hi" = generate (LlmManager.mk mRun 4096) "hi" :=
  generate_deterministic mgrRun (LlmManager.mk mRun 4096) "hi" rfl rfl

/-- C1: generation never exceeds the `maxTokens` budget (every successful
run generates at most 512 tokens), and when every decode succeeds and no
sampled token is ever an end-of-generation marker, the loop stops after
exactly `maxTokens` iterations and the call still returns the assembled
output as a success. -/
theorem generate_token_budget :
    (∀ (mgr : LlmManager) (prompt : String) (st : GenState),
      generateSt mgr prompt = .ok st → st.generated ≤ maxTokens) ∧
    (∀ (mgr : LlmManager) (prompt : String) (tokens : List Token),
      mgr.model.new_context_ok mgr.n_ctx = true →
      mgr.model.str_to_token prompt = some tokens →
      tokens ≠ [] →
      (∀ c b, mgr.model.decode_ok c b = true) →
      (∀ t, mgr.model.is_eog_token t = false) →
      (generateSt mgr prompt).map GenState.generated = .ok maxTokens ∧
      (generate mgr prompt).isOk = true) := by
  constructor
  · intro mgr prompt st h
    unfold generateSt at h
    split at h
    · split at h
      · simp at h
      · split at h
        · simp at h
        · simp only [] at h
          split at h
          · have := genLoop_generated_le _ _ _ _ _ h
            simpa using this
          · simp at h
    · simp at h
  · intro mgr prompt tokens hctx htok hne hdecall heog
    obtain ⟨st, h1, h2⟩ := genLoop_no_eog_total mgr.model tokens.length hdecall heog maxTokens
      { ctx := [prefillBatch tokens], output := "", generated := 0 }
    have hst : generateSt mgr prompt = .ok st := by
      simp [generateSt, hctx, htok, hne, hdecall]
      exact h1
    simp at h2
    constructor
    · rw [hst]
      simp [Except.map, h2]
    · simp [generate, hst, Except.map, Except.isOk, Except.toBool]

/-- Witness for C1: the general bound at the concrete final state of
`mgrRun`, and the never-ending model exhausting the full budget
successfully at a concrete prompt. -/
theorem generate_token_budget_witness :
    stRunFinal.generated ≤ maxTokens ∧
    ((generateSt mgrNoEog "hi").map GenState.generated = .ok maxTokens ∧
      (generate mgrNoEog "hi").isOk = true) :=
  ⟨generate_token_budget.1 mgrRun "hi" stRunFinal rfl,
   generate_token_budget.2 mgrNoEog "hi" [1, 104, 105] rfl rfl (by decide)
     (fun _ _ => rfl) (fun _ => rfl)⟩

/-- C4: the prefill batch holds every prompt token `i` at position `i`,
with the logits flag on the final position and on no other: exactly one
entry of the batch requests logits. -/
theorem prefill_batch_spec (tokens : List Token) (i : Nat)
    (hne : tokens ≠ []) (hi : i < tokens.length) :
    (prefillBatch tokens).length = tokens.length ∧
    (prefillBatch tokens).get? i =
      some { token := tokens.get ⟨i, hi⟩, pos := (i : Int),
             logits := i == tokens.length - 1 } ∧
    (prefillBatch tokens).countP (fun e => e.logits) = 1 := by
  refine ⟨by simp [prefillBatch], ?_, ?_⟩
  · have hp : i < (prefillBatch tokens).length := by simp [prefillBatch, hi]
    rw [List.get?_eq_get hp]
    simp [prefillBatch]
  · have h1 : (prefillBatch tokens).countP (fun e => e.logits) =
        tokens.enum.countP (fun p => p.1 == tokens.length - 1) := by
      rw [prefillBatch, List.countP_map]
      rfl
    have h2 : tokens.enum.countP (fun p => p.1 == tokens.length - 1) =
        (List.range tokens.length).countP (fun k => k == tokens.length - 1) := by
      rw [← List.enum_map_fst tokens, List.countP_map]
      rfl
    have hl : 0 < tokens.length := List.length_pos.mpr hne
    have h3 : (List.range tokens.length).count (tokens.length - 1) = 1 :=
      List.count_eq_one_of_mem (List.nodup_range tokens.length) (by simp; omega)
    rw [h1, h2]
    exact h3

/-- Witness for C4: the prefill batch of a concrete three-token prompt. -/
theorem prefill_batch_spec_witness :
    (prefillBatch [1, 104, 105]).length = 3 ∧
    (prefillBatch [1, 104, 105]).get? 2 =
      some { token := 105, pos := 2, logits := true } ∧
    (prefillBatch [1, 104, 105]).countP (fun e => e.logits) = 1 := by
  have h := prefill_batch_spec [1, 104, 105] 2 (by decide) (by decide)
  simpa using h

/-- C7: in a successful generation, the batch decoded for the k-th
generated token (k counted from 0) is a one-token batch at position
`k + prompt length` with the logits flag set, holding the token sampled
from the same execution context as it stood before that batch — the
context trace places it right after the prefill batch and the k earlier
one-token batches. -/
theorem gen_token_batch_positions (mgr : LlmManager) (prompt : String)
    (tokens : List Token) (st : GenState) (k : Nat)
    (hctx : mgr.model.new_context_ok mgr.n_ctx = true)
    (htok : mgr.model.str_to_token prompt = some tokens)
    (hgen : generateSt mgr prompt = .ok st)
    (hk : k < st.generated) :
    st.ctx.get? (k + 1) =
      some [{ token := mgr.model.sample (st.ctx.take (k + 1)),
              pos := (k : Int) + (tokens.length : Int), logits := true }] := by
  have hshape : ctxShape mgr.model tokens.length st.ctx st.generated := by
    unfold generateSt at hgen
    rw [hctx] at hgen
    simp only [if_true] at hgen
    rw [htok] at hgen
    have hEmp : tokens.isEmpty = false := by
      cases hE : tokens.isEmpty
      · rfl
      · simp [hE] at hgen
    simp only [hEmp, Bool.false_eq_true, if_false] at hgen
    cases hDec : mgr.model.decode_ok [] (prefillBatch tokens)
    · simp [hDec] at hgen
    · simp only [hDec, if_true] at hgen
      refine genLoop_ctxShape mgr.model tokens.length maxTokens _ _ ?_ hgen
      exact ⟨by simp, fun j hj => absurd hj (Nat.not_lt_zero j)⟩
  obtain ⟨hk1, hget⟩ := hshape.2 k hk
  rw [List.get?_eq_get hk1]
  rw [hget]

/-- Witness for C7: the second generated token of `mgrRun` on "hi" sits at
position 4 = 1 + 3 in a one-token logits-flagged batch. -/
theorem gen_token_batch_positions_witness :
    stRunFinal.ctx.get? 2 =
      some [{ token := mRun.sample (stRunFinal.ctx.take 2),
              pos := (1 : Int) + 3, logits := true }] :=
  gen_token_batch_positions mgrRun "hi" [1, 104, 105] stRunFinal 1 rfl rfl rfl
    (by decide)

/-- C9: the coordinator services one message to completion before touching
the next, so at every prefix of its event trace at most one generation is
in progress: no two generation intervals ever overlap on the same
engine. -/
theorem coordinator_serializes_generations (q : List WorkerMsg) (n : Nat) :
    activeGens ((coordTrace q).take n) ≤ 1 := by
  induction q generalizing n with
  | nil => simp [coordTrace, activeGens]
  | cons msg rest ih =>
    cases msg with
    | generateReq id prompt =>
      match n with
      | 0 => simp [activeGens]
      | 1 => simp [coordTrace, activeGens, isGenStart, isGenEnd]
      | n + 2 =>
        have := ih n
        simp only [coordTrace, List.take, List.countP_cons, activeGens] at this ⊢
        simp [isGenStart, isGenEnd]
        omega
    | checkHealth =>
      match n with
      | 0 => simp [activeGens]
      | n + 1 =>
        have := ih n
        simp only [coordTrace, List.take, List.countP_cons, activeGens] at this ⊢
        simp [isGenStart, isGenEnd]
        omega
    | shutdown => simp [coordTrace, activeGens]

/-- C10: an empty-string success is reachable at the public interface: a
non-empty prompt that tokenizes to a non-empty sequence and prefills
successfully returns `Ok ""` when the very first sampled token is the
end-of-generation marker. -/
theorem empty_string_success_reachable :
    ("hi" : String) ≠ "" ∧
    mEog.str_to_token "hi" = some [1, 104, 105] ∧
    ([1, 104, 105] : List Token) ≠ [] ∧
    mEog.decode_ok [] (prefillBatch [1, 104, 105]) = true ∧
    generate mgrEog "hi" = .ok "" :=
  ⟨by decide, rfl, by decide, rfl, rfl⟩
